import Mathlib

/-!
Verification of the retrieval backend in `backend/app.py` (PDF comparison
service).  The Python program is shallowly embedded below:

* `extract_pages_text` mirrors the helper of the same name: it turns the raw
  per-page texts of one document into `(page_number, whitespace-normalized
  text)` pairs, numbering pages from 1 (`pages.append((i + 1, text))`).
  PDF reading itself is an external collaborator, so a document is modelled
  as the list of raw strings its pages yield (an extraction failure yields
  `""`, exactly as the `except` branch does).
* `build_index` mirrors the global loop over `PDF_FILES`: a configured
  document is either missing (`Option.none`, the `os.path.exists` branch) or
  present with its page texts.  It produces the triple of globals
  `pages_data`, `doc_page_index`, `all_texts`.  The scikit-learn
  `TfidfVectorizer` is an external library; its input (`all_texts`) and the
  `tfidf_matrix is None` condition (`all_texts = []`) are modelled exactly,
  while the fitted matrix and the transformed query enter `api_search` as
  explicit vector parameters (`matrix`, `qvec`) over `ℚ`.
  `linear_kernel(qvec, tfidf_matrix)` is the plain dot product `dotList`,
  which equals cosine similarity because the vectorizer L2-normalizes rows.
* `api_search` mirrors the `/api/search` handler: query stripping, the two
  error branches, numpy's `scores.argsort()[::-1][:top_k]` (argsort modelled
  as the stable ascending sort of indices, ties by position), Python float
  `round(score, 4)` modelled as round-half-even on `ℚ`, Python slicing
  semantics for possibly negative `top_k` (`pytake`), snippet truncation and
  link building.
* `synthesize_summary` mirrors the summary helper, with Python's stable
  `sorted(..., key=..., reverse=True)` modelled by `List.insertionSort` with
  a descending total preorder (which is stable in the same way).
-/

/-- One entry of the global `pages_data` list:
`{"doc_key": ..., "page_no": ..., "text": ...}`. -/
structure PageEntry where
  doc_key : String
  page_no : ℕ
  text : String
deriving DecidableEq, Repr, Inhabited

/-- Python `str.strip()`: drop whitespace from both ends.  Defined on the
character list so that it evaluates by kernel reduction (the byte-position
based `String.trim` does not). -/
def pystrip (s : String) : String :=
  String.mk (((s.toList.dropWhile Char.isWhitespace).reverse.dropWhile
    Char.isWhitespace).reverse)

/-- Helper for `pysplit`: cut a character list into maximal non-whitespace
runs, carrying the (reversed) current run. -/
def wsSplitAux : List Char → List Char → List (List Char)
  | [], acc => if acc.isEmpty then [] else [acc.reverse]
  | c :: rest, acc =>
      if c.isWhitespace then
        if acc.isEmpty then wsSplitAux rest []
        else acc.reverse :: wsSplitAux rest []
      else wsSplitAux rest (c :: acc)

/-- Python `str.split()` with no argument: maximal non-whitespace runs
(never yields empty pieces). -/
def pysplit (s : String) : List String :=
  (wsSplitAux s.toList []).map String.mk

/-- Python `str.lower()` (character-wise case folding). -/
def pylower (s : String) : String :=
  String.mk (s.toList.map Char.toLower)

/-- Python `sep.join(parts)`. -/
def pyjoin (sep : String) : List String → String
  | [] => ""
  | p :: rest => rest.foldl (fun acc q => acc ++ sep ++ q) p

/-- The first `n` characters of a string (Python `s[:n]` for `n ≥ 0`). -/
def strTake (s : String) (n : ℕ) : String :=
  String.mk (s.toList.take n)

/-- Python `" ".join(text.split())`: collapse all whitespace runs. -/
def normWs (s : String) : String :=
  pyjoin " " (pysplit s)

/-- `extract_pages_text`: page numbers are `i + 1` for `i` the 0-based page
position, and each text is whitespace-normalized.  The input list holds the
raw text of each page (an extraction failure contributes `""`). -/
def extract_pages_text (texts : List String) : List (ℕ × String) :=
  texts.enum.map fun it => (it.1 + 1, normWs it.2)

/-- The text handed to the vectorizer for a page:
`text if text.strip() else "[no-text-on-page]"`. -/
def vectorText (t : String) : String :=
  if pystrip t = "" then "[no-text-on-page]" else t

/-- The global index state: `pages_data`, `doc_page_index` (an ordered
association list, like the insertion-ordered Python dict) and `all_texts`
(the vectorizer input; `tfidf_matrix is None` iff `all_texts = []`). -/
structure IndexState where
  pages_data : List PageEntry
  doc_page_index : List (String × List ℕ)
  all_texts : List String
deriving DecidableEq, Repr

/-- Body of the inner page loop of `build_index`: append the page record,
record its global position (`len(pages_data)` before the append) and append
its vectorizer text. -/
def addPage (dk : String) (acc : IndexState × List ℕ) (pt : ℕ × String) :
    IndexState × List ℕ :=
  (⟨acc.1.pages_data ++ [⟨dk, pt.1, pt.2⟩], acc.1.doc_page_index,
      acc.1.all_texts ++ [vectorText pt.2]⟩,
    acc.2 ++ [acc.1.pages_data.length])

/-- Body of the outer document loop of `build_index`: a missing file records
an empty position list; a present one runs the page loop and records the
collected positions under the document key. -/
def addDoc (s : IndexState) (d : String × Option (List String)) : IndexState :=
  match d.2 with
  | none => ⟨s.pages_data, s.doc_page_index ++ [(d.1, [])], s.all_texts⟩
  | some texts =>
      let r := (extract_pages_text texts).foldl (addPage d.1) (s, [])
      ⟨r.1.pages_data, r.1.doc_page_index ++ [(d.1, r.2)], r.1.all_texts⟩

/-- `build_index`: fold the document loop over the configured documents
(`PDF_FILES` in iteration order; `none` = file not found). -/
def build_index (docs : List (String × Option (List String))) : IndexState :=
  docs.foldl addDoc ⟨[], [], []⟩

/-- The page list a configured document contributes (`[]` when missing). -/
def pagesOf : Option (List String) → List (ℕ × String)
  | none => []
  | some texts => extract_pages_text texts

/-- Dot product of two rational vectors (`linear_kernel` on one query row);
trailing entries of the longer vector are ignored, as for equal-length
vectors they multiply against zeros. -/
def dotList : List ℚ → List ℚ → ℚ
  | x :: xs, y :: ys => x * y + dotList xs ys
  | _, _ => 0

/-- Round-half-even on `ℚ`, the rounding mode of Python's `round`. -/
def roundHalfEven (q : ℚ) : ℤ :=
  if q - ⌊q⌋ < 1 / 2 then ⌊q⌋
  else if 1 / 2 < q - ⌊q⌋ then ⌊q⌋ + 1
  else if ⌊q⌋ % 2 = 0 then ⌊q⌋ else ⌊q⌋ + 1

/-- Python `round(score, 4)`. -/
def pyround4 (x : ℚ) : ℚ :=
  (roundHalfEven (x * 10000) : ℚ) / 10000

/-- Python list slicing `l[:k]` for an `int` `k` (negative `k` drops the
last `|k|` elements). -/
def pytake {α : Type} (k : ℤ) (l : List α) : List α :=
  if 0 ≤ k then l.take k.toNat else l.take ((l.length : ℤ) + k).toNat

/-- The snippet of a page text:
`(text[:600] + "...") if len(text) > 600 else text`. -/
def pysnippet (t : String) : String :=
  if t.length > 600 then strTake t 600 ++ "..." else t

/-- Order in which `scores.argsort()` (ascending, ties by index — the order
a stable sort produces) lists two positions of the score list. -/
def argsortRel (ds : List ℚ) (i j : ℕ) : Prop :=
  ds.getD i 0 < ds.getD j 0 ∨ (ds.getD i 0 = ds.getD j 0 ∧ i ≤ j)

instance (ds : List ℚ) : DecidableRel (argsortRel ds) := fun i j => by
  unfold argsortRel; infer_instance

/-- `scores.argsort()`: the positions `0, …, len-1` sorted by ascending
score (stable, so ties stay in position order). -/
def argsort (ds : List ℚ) : List ℕ :=
  List.insertionSort (argsortRel ds) (List.range ds.length)

instance (ds : List ℚ) : IsTotal ℕ (argsortRel ds) where
  total a b := by
    unfold argsortRel
    rcases lt_trichotomy (ds.getD a 0) (ds.getD b 0) with h | h | h
    · exact Or.inl (Or.inl h)
    · rcases Nat.le_total a b with hab | hab
      · exact Or.inl (Or.inr ⟨h, hab⟩)
      · exact Or.inr (Or.inr ⟨h.symm, hab⟩)
    · exact Or.inr (Or.inl h)

instance (ds : List ℚ) : IsTrans ℕ (argsortRel ds) where
  trans a b c hab hbc := by
    unfold argsortRel at hab hbc ⊢
    rcases hab with h1 | ⟨e1, l1⟩ <;> rcases hbc with h2 | ⟨e2, l2⟩
    · exact Or.inl (lt_trans h1 h2)
    · exact Or.inl (e2 ▸ h1)
    · exact Or.inl (by rw [e1]; exact h2)
    · exact Or.inr ⟨e1.trans e2, le_trans l1 l2⟩

/-- `scores = cosine_similarities[idxs]`: the per-document score list. -/
def docScores (sims : List ℚ) (indices : List ℕ) : List ℚ :=
  indices.map fun i => sims.getD i 0

/-- `top_idx_order = scores.argsort()[::-1][:top_k]`. -/
def docOrder (sims : List ℚ) (top_k : ℤ) (indices : List ℕ) : List ℕ :=
  pytake top_k (argsort (docScores sims indices)).reverse

/-- One returned result item. -/
structure RankedItem where
  page_no : ℕ
  score : ℚ
  text_snippet : String
  pdf_link : String
deriving DecidableEq, Repr

/-- The `items` list built for one document with a non-empty position
list. -/
def docItems (fileName : String) (pages_data : List PageEntry) (sims : List ℚ)
    (top_k : ℤ) (indices : List ℕ) : List RankedItem :=
  (docOrder sims top_k indices).map fun rank_pos =>
    let page_idx := indices.getD rank_pos 0
    let e := pages_data.getD page_idx default
    { page_no := e.page_no,
      score := pyround4 ((docScores sims indices).getD rank_pos 0),
      text_snippet := pysnippet e.text,
      pdf_link := fileName ++ "#page=" ++ toString e.page_no }

/-- The two error responses of `api_search`: `"empty query"` (HTTP 400) and
`"Index not built or PDFs missing."` (HTTP 500). -/
inductive SearchError where
  | emptyQuery : SearchError
  | indexUnavailable : SearchError
deriving DecidableEq, Repr

/-- A successful search response. -/
structure SearchOk where
  query : String
  results : List (String × List RankedItem)
  summary : String
deriving DecidableEq, Repr

/-- Python `set(t.lower() for t in s.split() if len(t) > 2)` (query side). -/
def qTokens (s : String) : Finset String :=
  (((pysplit s).filter (fun t => 2 < t.length)).map pylower).toFinset

/-- Python `c in ".,()"`. -/
def isStripChar (c : Char) : Bool :=
  c = '.' || c = ',' || c = '(' || c = ')'

/-- Python `s.strip(".,()")`: drop those characters from both ends. -/
def stripPunct (s : String) : String :=
  String.mk (((s.toList.dropWhile isStripChar).reverse.dropWhile isStripChar).reverse)

/-- Python `set(w.lower().strip(".,()") for w in text.split() if len(w) > 2)`
(document side). -/
def docTokens (s : String) : Finset String :=
  (((pysplit s).filter (fun t => 2 < t.length)).map
    fun w => stripPunct (pylower w)).toFinset

/-- `overlap = len(q_tokens & tokens)`. -/
def overlapScore (query text : String) : ℕ :=
  (qTokens query ∩ docTokens text).card

/-- The `doc_scores` dict in insertion order. -/
def docScoresList (query : String) (snips : List (String × String)) :
    List (String × ℕ) :=
  snips.map fun p => (p.1, overlapScore query p.2)

/-- `ranked = sorted(doc_scores.items(), key=lambda x: x[1], reverse=True)`:
a stable descending sort on the overlap score. -/
def rankedDocs (query : String) (snips : List (String × String)) :
    List (String × ℕ) :=
  List.insertionSort (fun a b => b.2 ≤ a.2) (docScoresList query snips)

instance : IsTotal (String × ℕ) (fun a b => b.2 ≤ a.2) where
  total a b := Nat.le_total b.2 a.2

instance : IsTrans (String × ℕ) (fun a b => b.2 ≤ a.2) where
  trans _ _ _ h1 h2 := le_trans h2 h1

/-- The `lines` list assembled by `synthesize_summary`. -/
def synthLines (query : String) (snips : List (String × String)) : List String :=
  let ranked := rankedDocs query snips
  let l2 :=
    match ranked with
    | [] => "No clear dominant document found; all provide contextual relevance."
    | r0 :: _ =>
        if 0 < r0.2 then
          "Documents with strongest relevance: " ++
            pyjoin ", " (ranked.map Prod.fst) ++ "."
        else "No clear dominant document found; all provide contextual relevance."
  let docLines := ranked.filterMap fun p =>
    let snippet := ((snips.lookup p.1).getD "")
    if pystrip snippet = "" then none
    else some (p.1 ++ ": " ++
      (if snippet.length > 200 then strTake snippet 200 ++ "..." else snippet))
  (("Comparative summary for query: “" ++ query ++ "”.") :: l2 :: docLines) ++
    ["Note: Click on the document links to view the relevant PDF pages."]

/-- `synthesize_summary`: `" ".join(lines)`. -/
def synthesize_summary (query : String) (snips : List (String × String)) : String :=
  pyjoin " " (synthLines query snips)

/-- The `results` dict of a successful search, in `doc_page_index` order. -/
def searchResults (fileNames : String → String) (st : IndexState)
    (sims : List ℚ) (top_k : ℤ) : List (String × List RankedItem) :=
  st.doc_page_index.map fun p =>
    if p.2.isEmpty then (p.1, ([] : List RankedItem))
    else (p.1, docItems (fileNames p.1) st.pages_data sims top_k p.2)

/-- The `snippets_for_summary` dict: only documents with a non-empty
position list, each mapped to its items' snippets joined by spaces. -/
def searchSnips (fileNames : String → String) (st : IndexState)
    (sims : List ℚ) (top_k : ℤ) : List (String × String) :=
  st.doc_page_index.filterMap fun p =>
    if p.2.isEmpty then none
    else some (p.1, pyjoin " "
      ((docItems (fileNames p.1) st.pages_data sims top_k p.2).map
        fun it => it.text_snippet))

/-- The `/api/search` handler.  `fileNames` models
`os.path.basename(PDF_FILES[doc_key])`; `qvec` is the transformed query and
`matrix` the fitted TF-IDF matrix (row `i` belongs to corpus position `i`),
both produced by the external vectorizer. -/
def api_search (fileNames : String → String) (st : IndexState)
    (rawQuery : String) (top_k : ℤ) (qvec : List ℚ)
    (matrix : List (List ℚ)) : Except SearchError SearchOk :=
  let query := pystrip rawQuery
  if query = "" then .error .emptyQuery
  else if st.all_texts.isEmpty then .error .indexUnavailable
  else
    let sims := matrix.map fun row => dotList qvec row
    .ok { query := query,
          results := searchResults fileNames st sims top_k,
          summary := synthesize_summary query
            (searchSnips fileNames st sims top_k) }

/-- The per-document result lists of a response (`[]` on error). -/
def resultsOf (r : Except SearchError SearchOk) :
    List (String × List RankedItem) :=
  match r with
  | .ok s => s.results
  | .error _ => []

/-- Whether a search response is a success. -/
def searchOk (r : Except SearchError SearchOk) : Bool :=
  match r with
  | .ok _ => true
  | .error _ => false

/-- The invariant of the built index state: the vectorizer texts mirror the
page records (with the sentinel substitution), the per-document position
lists concatenate, in document order, to exactly `0, …, len(pages_data)-1`,
and position `a` of a document's list points at a page record carrying that
document's key and page number `a + 1`. -/
def IndexInv (s : IndexState) : Prop :=
  s.all_texts = s.pages_data.map (fun e => vectorText e.text) ∧
  (s.doc_page_index.map Prod.snd).flatten = List.range s.pages_data.length ∧
  ∀ dk idxs, (dk, idxs) ∈ s.doc_page_index → ∀ a, a < idxs.length →
    idxs.getD a 0 < s.pages_data.length ∧
    (s.pages_data.getD (idxs.getD a 0) default).doc_key = dk ∧
    (s.pages_data.getD (idxs.getD a 0) default).page_no = a + 1

/-! ### Small list access lemmas -/

lemma getD_lt_append_left {α : Type} (l l' : List α) (d : α) (i : ℕ)
    (h : i < l.length) : (l ++ l').getD i d = l.getD i d := by
  rw [List.getD_eq_getElem _ _ (by simp; omega), List.getD_eq_getElem _ _ h]
  exact List.getElem_append_left h

lemma getD_append_add {α : Type} (l l' : List α) (d : α) (j : ℕ)
    (h : j < l'.length) : (l ++ l').getD (l.length + j) d = l'.getD j d := by
  rw [List.getD_eq_getElem _ _ (by simp; omega), List.getD_eq_getElem _ _ h]
  rw [List.getElem_append_right (by omega)]
  simp

lemma getD_map_lt {α β : Type} (f : α → β) (l : List α) (d : α) (d' : β)
    (i : ℕ) (h : i < l.length) : (l.map f).getD i d' = f (l.getD i d) := by
  rw [List.getD_eq_getElem _ _ (by simpa using h), List.getD_eq_getElem _ _ h,
    List.getElem_map]

lemma getD_range_lt (n i d : ℕ) (h : i < n) : (List.range n).getD i d = i := by
  rw [List.getD_eq_getElem _ _ (by simpa using h)]
  exact List.getElem_range _ _

lemma getD_mem_lt {α : Type} (l : List α) (d : α) (i : ℕ)
    (h : i < l.length) : l.getD i d ∈ l := by
  rw [List.getD_eq_getElem _ _ h]
  exact List.getElem_mem h

/-! ### Dot product bounds -/

lemma dotList_nil_left (v : List ℚ) : dotList [] v = 0 := by
  cases v <;> rfl

lemma dotList_nil_right (u : List ℚ) : dotList u [] = 0 := by
  cases u <;> rfl

lemma dotList_self_nonneg (v : List ℚ) : 0 ≤ dotList v v := by
  induction v with
  | nil => simp [dotList_nil_left]
  | cons x xs ih =>
      have := mul_self_nonneg x
      simp only [dotList]
      linarith

lemma dotList_nonneg (u v : List ℚ) (hu : ∀ x ∈ u, 0 ≤ x)
    (hv : ∀ y ∈ v, 0 ≤ y) : 0 ≤ dotList u v := by
  induction u generalizing v with
  | nil => simp [dotList_nil_left]
  | cons x xs ih =>
      cases v with
      | nil => simp [dotList_nil_right]
      | cons y ys =>
          have h1 : 0 ≤ x := hu x (by simp)
          have h2 : 0 ≤ y := hv y (by simp)
          have h3 : 0 ≤ dotList xs ys :=
            ih ys (fun a ha => hu a (by simp [ha])) (fun b hb => hv b (by simp [hb]))
          simp only [dotList]
          nlinarith

lemma two_mul_dotList_le (u v : List ℚ) :
    2 * dotList u v ≤ dotList u u + dotList v v := by
  induction u generalizing v with
  | nil =>
      have := dotList_self_nonneg v
      simp only [dotList_nil_left]
      linarith
  | cons x xs ih =>
      cases v with
      | nil =>
          have h1 := dotList_self_nonneg (x :: xs)
          simp only [dotList_nil_right]
          linarith
      | cons y ys =>
          have h := ih ys
          simp only [dotList]
          nlinarith [sq_nonneg (x - y)]

lemma dotList_le_one (u v : List ℚ) (hu : dotList u u ≤ 1)
    (hv : dotList v v ≤ 1) : dotList u v ≤ 1 := by
  have := two_mul_dotList_le u v
  linarith

/-! ### Round-half-even -/

lemma roundHalfEven_floor_le (q : ℚ) : ⌊q⌋ ≤ roundHalfEven q := by
  unfold roundHalfEven
  split_ifs <;> omega

lemma roundHalfEven_le_floor_add_one (q : ℚ) : roundHalfEven q ≤ ⌊q⌋ + 1 := by
  unfold roundHalfEven
  split_ifs <;> omega

lemma roundHalfEven_mono {x y : ℚ} (h : x ≤ y) :
    roundHalfEven x ≤ roundHalfEven y := by
  rcases lt_or_eq_of_le (Int.floor_le_floor h) with hlt | heq
  · calc roundHalfEven x ≤ ⌊x⌋ + 1 := roundHalfEven_le_floor_add_one x
      _ ≤ ⌊y⌋ := by omega
      _ ≤ roundHalfEven y := roundHalfEven_floor_le y
  · have hfr : x - ⌊x⌋ ≤ y - ⌊y⌋ := by
      rw [← heq]
      have := sub_le_sub_right h ((⌊x⌋ : ℚ))
      linarith
    unfold roundHalfEven
    rw [← heq]
    split_ifs <;> first | omega | linarith

lemma roundHalfEven_nonneg {q : ℚ} (h : 0 ≤ q) : 0 ≤ roundHalfEven q := by
  have h0 : (0 : ℤ) ≤ ⌊q⌋ := Int.le_floor.mpr (by exact_mod_cast h)
  have := roundHalfEven_floor_le q
  omega

lemma roundHalfEven_le_int {q : ℚ} {N : ℤ} (h : q ≤ (N : ℚ)) :
    roundHalfEven q ≤ N := by
  have hf : ⌊q⌋ ≤ N := by
    have := Int.floor_le_floor h
    rwa [Int.floor_intCast] at this
  have hfl : (⌊q⌋ : ℚ) ≤ q := Int.floor_le q
  unfold roundHalfEven
  split_ifs with h1 h2 h3
  · exact hf
  · -- fractional part exceeds 1/2, so the floor is strictly below N
    have : (⌊q⌋ : ℚ) < (N : ℚ) := by linarith
    have : ⌊q⌋ < N := by exact_mod_cast this
    omega
  · exact hf
  · -- tie case: the fractional part is exactly 1/2, again floor < N
    have h4 : (1 : ℚ) / 2 ≤ q - ⌊q⌋ := le_of_not_lt h1
    have : (⌊q⌋ : ℚ) < (N : ℚ) := by linarith
    have : ⌊q⌋ < N := by exact_mod_cast this
    omega

lemma pyround4_mono {x y : ℚ} (h : x ≤ y) : pyround4 x ≤ pyround4 y := by
  unfold pyround4
  have h1 : x * 10000 ≤ y * 10000 := by linarith
  have h2 := roundHalfEven_mono h1
  have h3 : ((roundHalfEven (x * 10000) : ℚ)) ≤ (roundHalfEven (y * 10000) : ℚ) := by
    exact_mod_cast h2
  linarith

lemma pyround4_nonneg {x : ℚ} (h : 0 ≤ x) : 0 ≤ pyround4 x := by
  unfold pyround4
  have h1 : (0 : ℚ) ≤ x * 10000 := by linarith
  have h2 := roundHalfEven_nonneg h1
  have h3 : (0 : ℚ) ≤ (roundHalfEven (x * 10000) : ℚ) := by exact_mod_cast h2
  positivity

lemma pyround4_le_one {x : ℚ} (h : x ≤ 1) : pyround4 x ≤ 1 := by
  unfold pyround4
  have h1 : x * 10000 ≤ ((10000 : ℤ) : ℚ) := by push_cast; linarith
  have h2 := roundHalfEven_le_int h1
  have h3 : ((roundHalfEven (x * 10000) : ℚ)) ≤ 10000 := by exact_mod_cast h2
  linarith

/-! ### The argsort order -/

lemma argsort_sorted (ds : List ℚ) :
    List.Sorted (argsortRel ds) (argsort ds) :=
  List.sorted_insertionSort _ _

lemma argsort_perm (ds : List ℚ) :
    (argsort ds).Perm (List.range ds.length) :=
  List.perm_insertionSort _ _

lemma pytake_sublist {α : Type} (k : ℤ) (l : List α) : (pytake k l).Sublist l := by
  unfold pytake
  split
  · exact List.take_sublist _ _
  · exact List.take_sublist _ _

lemma docOrder_pairwise (sims : List ℚ) (top_k : ℤ) (indices : List ℕ) :
    List.Pairwise (fun a b => argsortRel (docScores sims indices) b a)
      (docOrder sims top_k indices) := by
  have h1 : List.Sorted (argsortRel (docScores sims indices))
      (argsort (docScores sims indices)) := argsort_sorted _
  have h2 := List.pairwise_reverse.mpr h1
  exact List.Pairwise.sublist (pytake_sublist _ _) h2

lemma docOrder_length_le (sims : List ℚ) (top_k : ℤ) (indices : List ℕ)
    (hk : 0 ≤ top_k) : (docOrder sims top_k indices).length ≤ top_k.toNat := by
  unfold docOrder pytake
  rw [if_pos hk]
  simp [List.length_take]

lemma docOrder_mem_lt (sims : List ℚ) (top_k : ℤ) (indices : List ℕ) (a : ℕ)
    (h : a ∈ docOrder sims top_k indices) : a < indices.length := by
  have h1 : a ∈ (argsort (docScores sims indices)).reverse :=
    (pytake_sublist _ _).subset h
  rw [List.mem_reverse] at h1
  have h2 : a ∈ List.range (docScores sims indices).length :=
    (argsort_perm _).subset h1
  simpa [docScores] using List.mem_range.mp h2

lemma docOrder_nodup (sims : List ℚ) (top_k : ℤ) (indices : List ℕ) :
    (docOrder sims top_k indices).Nodup := by
  have h1 : (argsort (docScores sims indices)).Nodup :=
    ((argsort_perm _).nodup_iff).mpr (List.nodup_range _)
  exact List.Nodup.sublist (pytake_sublist _ _) (List.nodup_reverse.mpr h1)

lemma docScores_getD (sims : List ℚ) (indices : List ℕ) (r : ℕ)
    (h : r < indices.length) :
    (docScores sims indices).getD r 0 = sims.getD (indices.getD r 0) 0 := by
  unfold docScores
  exact getD_map_lt _ _ 0 0 r h

/-! ### Stable descending sort used by the summary -/

lemma rankedDocs_pairwise (query : String) (snips : List (String × String)) :
    List.Pairwise (fun a b => b.2 ≤ a.2) (rankedDocs query snips) :=
  List.sorted_insertionSort _ _

/-! ### Structure of the built index -/

lemma foldl_addPage (dk : String) (pages : List (ℕ × String)) :
    ∀ (s : IndexState) (ix : List ℕ),
    pages.foldl (addPage dk) (s, ix) =
      (⟨s.pages_data ++ pages.map (fun pt => ⟨dk, pt.1, pt.2⟩),
        s.doc_page_index,
        s.all_texts ++ pages.map (fun pt => vectorText pt.2)⟩,
       ix ++ (List.range pages.length).map (fun i => s.pages_data.length + i)) := by
  induction pages with
  | nil => intro s ix; simp
  | cons p rest ih =>
      intro s ix
      rw [List.foldl_cons,
        show addPage dk (s, ix) p =
          (⟨s.pages_data ++ [⟨dk, p.1, p.2⟩], s.doc_page_index,
            s.all_texts ++ [vectorText p.2]⟩, ix ++ [s.pages_data.length]) from rfl,
        ih]
      simp only [Prod.mk.injEq, IndexState.mk.injEq, List.map_cons,
        List.length_append, List.length_cons, List.length_nil,
        List.append_assoc, List.singleton_append, List.length_map,
        List.range_succ_eq_map, List.map_map]
      refine ⟨trivial, ?_⟩
      congr 1
      congr 1
      exact List.map_congr_left fun i _ => by
        simp only [Function.comp_apply]
        omega

lemma addDoc_none (s : IndexState) (dk : String) :
    addDoc s (dk, none) =
      ⟨s.pages_data, s.doc_page_index ++ [(dk, [])], s.all_texts⟩ := rfl

lemma addDoc_some (s : IndexState) (dk : String) (texts : List String) :
    addDoc s (dk, some texts) =
      ⟨s.pages_data ++ (extract_pages_text texts).map (fun pt => ⟨dk, pt.1, pt.2⟩),
       s.doc_page_index ++ [(dk, (List.range (extract_pages_text texts).length).map
          (fun i => s.pages_data.length + i))],
       s.all_texts ++ (extract_pages_text texts).map (fun pt => vectorText pt.2)⟩ := by
  show (⟨_, _ ++ [(dk, ((extract_pages_text texts).foldl (addPage dk) (s, [])).2)], _⟩ :
      IndexState) = _
  rw [foldl_addPage]
  simp

lemma extract_length (texts : List String) :
    (extract_pages_text texts).length = texts.length := by
  simp [extract_pages_text]

lemma extract_getD_fst (texts : List String) (a : ℕ) (h : a < texts.length) :
    ((extract_pages_text texts).getD a (0, "")).1 = a + 1 := by
  unfold extract_pages_text
  rw [getD_map_lt _ _ (0, "") (0, "") a (by simpa using h)]
  rw [List.getD_eq_getElem _ _ (by simpa using h), List.getElem_enum]

lemma indexInv_addDoc (s : IndexState) (d : String × Option (List String))
    (h : IndexInv s) : IndexInv (addDoc s d) := by
  obtain ⟨h1, h2, h3⟩ := h
  obtain ⟨dk, od⟩ := d
  cases od with
  | none =>
      rw [addDoc_none]
      refine ⟨h1, ?_, ?_⟩
      · show ((s.doc_page_index ++ [(dk, [])]).map Prod.snd).flatten = _
        rw [List.map_append, List.flatten_append]
        simpa using h2
      · intro dk2 idxs hmem a ha
        rw [List.mem_append] at hmem
        rcases hmem with hm | hm
        · exact h3 dk2 idxs hm a ha
        · simp only [List.mem_singleton, Prod.mk.injEq] at hm
          rw [hm.2] at ha
          simp at ha
  | some texts =>
      rw [addDoc_some]
      refine ⟨?_, ?_, ?_⟩
      · show s.all_texts ++ _ = _
        simp only [List.map_append, List.map_map]
        rw [← h1]
        rfl
      · show (((s.doc_page_index ++ _)).map Prod.snd).flatten = _
        rw [List.map_append, List.flatten_append]
        rw [h2, List.length_append, List.length_map, List.range_add]
        simp
      · intro dk2 idxs hmem a ha
        rw [List.mem_append] at hmem
        rcases hmem with hm | hm
        · obtain ⟨hb, hk, hpno⟩ := h3 dk2 idxs hm a ha
          refine ⟨?_, ?_, ?_⟩
          · rw [List.length_append]; omega
          · rw [getD_lt_append_left _ _ _ _ hb]; exact hk
          · rw [getD_lt_append_left _ _ _ _ hb]; exact hpno
        · simp only [List.mem_singleton, Prod.mk.injEq] at hm
          obtain ⟨rfl, rfl⟩ := hm
          have hn : a < (extract_pages_text texts).length := by
            simpa using ha
          have hga : ((List.range (extract_pages_text texts).length).map
              (fun i => s.pages_data.length + i)).getD a 0 =
                s.pages_data.length + a := by
            rw [getD_map_lt _ _ 0 0 a (by simpa using hn),
              getD_range_lt _ _ _ hn]
          have hlen2 : a < ((extract_pages_text texts).map
              (fun pt => (⟨dk2, pt.1, pt.2⟩ : PageEntry))).length := by
            simpa using hn
          refine ⟨?_, ?_, ?_⟩
          · rw [hga, List.length_append, List.length_map]
            omega
          · rw [hga, getD_append_add _ _ _ _ hlen2,
              getD_map_lt _ _ (0, "") default a hn]
          · rw [hga, getD_append_add _ _ _ _ hlen2,
              getD_map_lt _ _ (0, "") default a hn]
            show ((extract_pages_text texts).getD a (0, "")).1 = a + 1
            exact extract_getD_fst texts a (by rwa [extract_length] at hn)

lemma foldl_addDoc_inv :
    ∀ (docs : List (String × Option (List String))) (s : IndexState),
    IndexInv s → IndexInv (docs.foldl addDoc s) := by
  intro docs
  induction docs with
  | nil => intro s h; exact h
  | cons d rest ih =>
      intro s h
      rw [List.foldl_cons]
      exact ih (addDoc s d) (indexInv_addDoc s d h)

lemma build_inv (docs : List (String × Option (List String))) :
    IndexInv (build_index docs) := by
  apply foldl_addDoc_inv
  refine ⟨rfl, by simp, ?_⟩
  intro dk idxs hmem a ha
  simp at hmem

lemma foldl_addDoc_dpi_shape :
    ∀ (docs : List (String × Option (List String))) (s : IndexState),
    ((docs.foldl addDoc s).doc_page_index).map (fun p => (p.1, p.2.length)) =
      s.doc_page_index.map (fun p => (p.1, p.2.length)) ++
        docs.map (fun d => (d.1, (pagesOf d.2).length)) := by
  intro docs
  induction docs with
  | nil => intro s; simp
  | cons d rest ih =>
      intro s
      rw [List.foldl_cons, ih]
      obtain ⟨dk, od⟩ := d
      cases od with
      | none => rw [addDoc_none]; simp [pagesOf]
      | some texts => rw [addDoc_some]; simp [pagesOf]

lemma build_dpi_shape (docs : List (String × Option (List String))) :
    ((build_index docs).doc_page_index).map (fun p => (p.1, p.2.length)) =
      docs.map (fun d => (d.1, (pagesOf d.2).length)) := by
  have h := foldl_addDoc_dpi_shape docs ⟨[], [], []⟩
  simpa using h

lemma build_lengths (docs : List (String × Option (List String))) :
    (build_index docs).all_texts.length = (build_index docs).pages_data.length := by
  rw [(build_inv docs).1, List.length_map]

/-! ### Unfolding a successful search -/

lemma api_search_eq (f : String → String) (st : IndexState) (rawq : String)
    (top_k : ℤ) (qvec : List ℚ) (matrix : List (List ℚ))
    (hq : ¬ pystrip rawq = "") (hb : st.all_texts ≠ []) :
    api_search f st rawq top_k qvec matrix =
      .ok ⟨pystrip rawq,
        searchResults f st (matrix.map fun row => dotList qvec row) top_k,
        synthesize_summary (pystrip rawq)
          (searchSnips f st (matrix.map fun row => dotList qvec row) top_k)⟩ := by
  unfold api_search
  rw [if_neg hq, if_neg (by simpa [List.isEmpty_iff] using hb)]

lemma resultsOf_ok (f : String → String) (st : IndexState) (rawq : String)
    (top_k : ℤ) (qvec : List ℚ) (matrix : List (List ℚ))
    (hq : ¬ pystrip rawq = "") (hb : st.all_texts ≠ []) :
    resultsOf (api_search f st rawq top_k qvec matrix) =
      searchResults f st (matrix.map fun row => dotList qvec row) top_k := by
  rw [api_search_eq f st rawq top_k qvec matrix hq hb]
  rfl

lemma docItems_sorted (fn : String) (pd : List PageEntry) (sims : List ℚ)
    (top_k : ℤ) (indices : List ℕ) :
    ((docItems fn pd sims top_k indices).map RankedItem.score).Sorted
      (fun a b => b ≤ a) := by
  unfold docItems
  rw [List.map_map, List.Sorted, List.pairwise_map]
  refine (docOrder_pairwise sims top_k indices).imp ?_
  intro a b hab
  have hle : (docScores sims indices).getD b 0 ≤ (docScores sims indices).getD a 0 := by
    rcases hab with h | ⟨h, -⟩
    · exact le_of_lt h
    · exact le_of_eq h
  simpa using pyround4_mono hle

/-! ### Claim theorems -/

/-- Claim C1: for every non-empty query against a non-empty built index and
every positive integer `top_k`, each document's result list in the search
response has length at most `top_k` and its reported scores are in
non-increasing order. -/
theorem claim_C1_topk_len_and_sorted (f : String → String) (st : IndexState)
    (rawq : String) (top_k : ℤ) (qvec : List ℚ) (matrix : List (List ℚ))
    (hq : ¬ pystrip rawq = "") (hb : st.all_texts ≠ []) (hk : 0 < top_k) :
    ∀ p ∈ resultsOf (api_search f st rawq top_k qvec matrix),
      (p.2.length : ℤ) ≤ top_k ∧
      (p.2.map RankedItem.score).Sorted (fun a b => b ≤ a) := by
  intro p hp
  rw [resultsOf_ok f st rawq top_k qvec matrix hq hb] at hp
  unfold searchResults at hp
  rcases List.mem_map.1 hp with ⟨q, hqmem, rfl⟩
  by_cases he : q.2.isEmpty
  · simp only [he, if_true]
    exact ⟨by simp; omega, by simp⟩
  · simp only [he, if_false]
    constructor
    · have h1 : (docItems (f q.1) st.pages_data
          (matrix.map fun row => dotList qvec row) top_k q.2).length ≤
            top_k.toNat := by
        unfold docItems
        rw [List.length_map]
        exact docOrder_length_le _ _ _ (le_of_lt hk)
      calc ((docItems (f q.1) st.pages_data
              (matrix.map fun row => dotList qvec row) top_k q.2).length : ℤ)
          ≤ (top_k.toNat : ℤ) := by exact_mod_cast h1
        _ = top_k := Int.toNat_of_nonneg (le_of_lt hk)
    · exact docItems_sorted _ _ _ _ _

/-- Witness for claim C1 at a concrete two-page corpus. -/
theorem claim_C1_witness :
    (0 : ℤ) < 2 ∧
    ∀ p ∈ resultsOf (api_search (fun _ => "A.pdf")
        (build_index [("A", some ["alpha beta", "gamma delta"]), ("B", none)])
        "alpha" 2 [1, 0] [[1, 0], [0, 1]]),
      (p.2.length : ℤ) ≤ 2 ∧
      (p.2.map RankedItem.score).Sorted (fun a b => b ≤ a) :=
  ⟨by decide,
    claim_C1_topk_len_and_sorted _ _ _ _ _ _ (by decide) (by decide) (by decide)⟩

/-- Counterexample to claim C4: with a non-empty query, a built index and
`top_k = 0` the handler does not fail at all — it answers successfully with
an empty result list for the document (`int(data.get("top_k", TOP_K))` is
never validated and `[:0]` silently truncates to nothing). -/
theorem claim_C4_counterexample :
    searchOk (api_search (fun _ => "A.pdf")
      (build_index [("A", some ["alpha"])]) "alpha" 0 [1] [[1]]) = true ∧
    resultsOf (api_search (fun _ => "A.pdf")
      (build_index [("A", some ["alpha"])]) "alpha" 0 [1] [[1]]) =
      [("A", [])] := by
  decide

/-- Claim C4 (amended): the handler performs no validation of `top_k`: for
every integer `top_k ≤ 0` (and in fact any integer), a search with a
non-empty query on a built index succeeds, and `top_k = 0` yields an empty
result list for every document instead of an `InvalidRequest` error. -/
theorem claim_C4_amended_no_topk_validation (f : String → String)
    (st : IndexState) (rawq : String) (top_k : ℤ) (qvec : List ℚ)
    (matrix : List (List ℚ)) (hq : ¬ pystrip rawq = "")
    (hb : st.all_texts ≠ []) (hk : top_k ≤ 0) :
    searchOk (api_search f st rawq top_k qvec matrix) = true ∧
    ∀ p ∈ resultsOf (api_search f st rawq top_k qvec matrix),
      top_k = 0 → p.2 = [] := by
  constructor
  · rw [api_search_eq f st rawq top_k qvec matrix hq hb]
    rfl
  · intro p hp hzero
    rw [resultsOf_ok f st rawq top_k qvec matrix hq hb] at hp
    unfold searchResults at hp
    rcases List.mem_map.1 hp with ⟨q, hqm, rfl⟩
    by_cases he : q.2.isEmpty
    · simp [he]
    · simp only [he, if_false]
      show docItems _ _ _ _ _ = []
      subst hzero
      unfold docItems docOrder pytake
      simp

/-- Witness for the amended claim C4 at `top_k = 0`. -/
theorem claim_C4_witness :
    (¬ pystrip "beta" = "") ∧ ((0 : ℤ) ≤ 0) ∧
    (searchOk (api_search (fun _ => "B.pdf")
        (build_index [("B", some ["beta"])]) "beta" 0 [1] [[1]]) = true ∧
      ∀ p ∈ resultsOf (api_search (fun _ => "B.pdf")
          (build_index [("B", some ["beta"])]) "beta" 0 [1] [[1]]),
        (0 : ℤ) = 0 → p.2 = []) :=
  ⟨by decide, by decide,
    claim_C4_amended_no_topk_validation _ _ _ _ _ _ (by decide) (by decide)
      (by decide)⟩

/-- Claim C5: if the corpus was empty at build time (no page was indexed, so
`all_texts = []` and `tfidf_matrix is None`), every search with a non-empty
query fails with the `IndexUnavailable` error. -/
theorem claim_C5_empty_corpus_unavailable (f : String → String)
    (docs : List (String × Option (List String))) (rawq : String)
    (top_k : ℤ) (qvec : List ℚ) (matrix : List (List ℚ))
    (hq : ¬ pystrip rawq = "")
    (hempty : (build_index docs).pages_data = []) :
    api_search f (build_index docs) rawq top_k qvec matrix =
      .error SearchError.indexUnavailable := by
  have hat : (build_index docs).all_texts = [] := by
    have h := build_lengths docs
    rw [hempty] at h
    simpa using List.length_eq_zero.mp (by simpa using h)
  unfold api_search
  rw [if_neg hq, if_pos (by simp [hat])]

/-- Witness for claim C5: all three configured documents missing. -/
theorem claim_C5_witness :
    (¬ pystrip "risk" = "") ∧
    api_search (fun _ => "")
      (build_index [("PMBOK", none), ("PRINCE2", none), ("ISO21500", none)])
      "risk" 3 [] [] = .error SearchError.indexUnavailable :=
  ⟨by decide,
    claim_C5_empty_corpus_unavailable _ _ _ _ _ _ (by decide) (by decide)⟩

/-- Claim C7: every page — including one whose extracted text is empty or
whitespace-only — contributes exactly one entry to the corpus, and the text
handed to the vectorizer at its global position is the original text with
the fixed sentinel `"[no-text-on-page]"` substituted exactly when the text
strips to nothing; in particular the vectorizer input has one entry per
page. -/
theorem claim_C7_blank_page_sentinel_row
    (docs : List (String × Option (List String))) :
    (build_index docs).all_texts =
      (build_index docs).pages_data.map
        (fun e => if pystrip e.text = "" then "[no-text-on-page]" else e.text) ∧
    (build_index docs).all_texts.length =
      (build_index docs).pages_data.length := by
  refine ⟨?_, build_lengths docs⟩
  have h := (build_inv docs).1
  simpa [vectorText] using h

/-- Claim C8: after a build, the vectorizer input (hence the fitted matrix,
one row per input text) has exactly one entry per corpus page; the
per-document position lists concatenate, in configuration order, to
`0, …, corpus_length - 1` (so the positions partition the corpus in source
page order); and each configured document key appears with exactly the
number of positions of its page list — `0` (an empty list) when the
document is missing. -/
theorem claim_C8_positions_partition
    (docs : List (String × Option (List String))) :
    ((build_index docs).doc_page_index.map Prod.snd).flatten =
      List.range (build_index docs).pages_data.length ∧
    (build_index docs).all_texts.length =
      (build_index docs).pages_data.length ∧
    ((build_index docs).doc_page_index.map (fun p => (p.1, p.2.length))) =
      docs.map (fun d => (d.1, (pagesOf d.2).length)) :=
  ⟨(build_inv docs).2.1, build_lengths docs, build_dpi_shape docs⟩

/-- Claim C9: the summary synthesizer is a pure function of the query and
the per-document excerpt map — two calls on identical inputs produce the
identical summary string (the embedded model uses sets only through
cardinalities of intersections, so no iteration-order effect exists). -/
theorem claim_C9_synthesize_deterministic (q1 q2 : String)
    (s1 s2 : List (String × String)) (hq : q1 = q2) (hs : s1 = s2) :
    synthesize_summary q1 s1 = synthesize_summary q2 s2 := by
  rw [hq, hs]

/-- Witness for claim C9 on a concrete query and excerpt map. -/
theorem claim_C9_witness :
    ("risk" : String) = "risk" ∧
    ([("A", "risk register")] : List (String × String)) = [("A", "risk register")] ∧
    synthesize_summary "risk" [("A", "risk register")] =
      synthesize_summary "risk" [("A", "risk register")] :=
  ⟨rfl, rfl, claim_C9_synthesize_deterministic _ _ _ _ rfl rfl⟩

/-- Claim C10: in every successful search response the snippet of a returned
page is computed from the original page text stored in the corpus (truncated
at 600 characters), never from the vectorizer's sentinel substitution; in
particular a page whose extracted text is empty is returned with an empty
excerpt. -/
theorem claim_C10_excerpt_from_original_text (f : String → String)
    (docs : List (String × Option (List String))) (rawq : String)
    (top_k : ℤ) (qvec : List ℚ) (matrix : List (List ℚ))
    (hq : ¬ pystrip rawq = "") (hb : (build_index docs).all_texts ≠ []) :
    ∀ p ∈ resultsOf (api_search f (build_index docs) rawq top_k qvec matrix),
      ∀ it ∈ p.2, ∃ gp, gp < (build_index docs).pages_data.length ∧
        it.text_snippet =
          pysnippet (((build_index docs).pages_data.getD gp default).text) ∧
        (((build_index docs).pages_data.getD gp default).text = "" →
          it.text_snippet = "") := by
  intro p hp it hit
  rw [resultsOf_ok f (build_index docs) rawq top_k qvec matrix hq hb] at hp
  unfold searchResults at hp
  rcases List.mem_map.1 hp with ⟨q, hqm, rfl⟩
  by_cases he : q.2.isEmpty
  · simp [he] at hit
  · simp only [he, if_false] at hit
    unfold docItems at hit
    rcases List.mem_map.1 hit with ⟨r, hr, rfl⟩
    have hrlt : r < q.2.length := docOrder_mem_lt _ _ _ _ hr
    have hinv := (build_inv docs).2.2 q.1 q.2 hqm r hrlt
    refine ⟨q.2.getD r 0, hinv.1, rfl, ?_⟩
    intro h0
    show pysnippet _ = ""
    rw [h0]
    rfl

/-- Witness for claim C10 with a corpus containing a blank page. -/
theorem claim_C10_witness :
    (¬ pystrip "hello" = "") ∧
    ((build_index [("A", some ["", "hello"])]).all_texts ≠ []) ∧
    ∀ p ∈ resultsOf (api_search (fun _ => "A.pdf")
        (build_index [("A", some ["", "hello"])]) "hello" 3 [1] [[0], [1]]),
      ∀ it ∈ p.2, ∃ gp,
        gp < (build_index [("A", some ["", "hello"])]).pages_data.length ∧
        it.text_snippet = pysnippet
          (((build_index [("A", some ["", "hello"])]).pages_data.getD gp
            default).text) ∧
        (((build_index [("A", some ["", "hello"])]).pages_data.getD gp
            default).text = "" → it.text_snippet = "") :=
  ⟨by decide, by decide,
    claim_C10_excerpt_from_original_text _ _ _ _ _ _ (by decide) (by decide)⟩

/-- Claim C2: in a successful search over a built index, every returned
item's score is `round(·, 4)` of the similarity `linear_kernel` computes for
that page, namely the dot product of the transformed query vector with the
page's indexed row — which is their cosine similarity, since the vectorizer
L2-normalizes both (expressed by the hypotheses that all entries are
non-negative and each vector has squared norm at most 1, i.e. is a unit or
zero vector) — and the reported score lies in `[0, 1]`. -/
theorem claim_C2_score_rounded_cosine_in_unit_interval (f : String → String)
    (docs : List (String × Option (List String))) (rawq : String)
    (top_k : ℤ) (qvec : List ℚ) (matrix : List (List ℚ))
    (hq : ¬ pystrip rawq = "") (hb : (build_index docs).all_texts ≠ [])
    (hqv : ∀ x ∈ qvec, 0 ≤ x) (hqn : dotList qvec qvec ≤ 1)
    (hrows : ∀ row ∈ matrix, (∀ x ∈ row, 0 ≤ x) ∧ dotList row row ≤ 1)
    (hlen : matrix.length = (build_index docs).pages_data.length) :
    ∀ p ∈ resultsOf (api_search f (build_index docs) rawq top_k qvec matrix),
      ∀ it ∈ p.2, ∃ gp, gp < matrix.length ∧
        it.page_no = ((build_index docs).pages_data.getD gp default).page_no ∧
        it.score = pyround4 (dotList qvec (matrix.getD gp [])) ∧
        0 ≤ it.score ∧ it.score ≤ 1 := by
  intro p hp it hit
  rw [resultsOf_ok f (build_index docs) rawq top_k qvec matrix hq hb] at hp
  unfold searchResults at hp
  rcases List.mem_map.1 hp with ⟨q, hqm, rfl⟩
  by_cases he : q.2.isEmpty
  · simp [he] at hit
  · simp only [he, if_false] at hit
    unfold docItems at hit
    rcases List.mem_map.1 hit with ⟨r, hr, rfl⟩
    have hrlt : r < q.2.length := docOrder_mem_lt _ _ _ _ hr
    have hinv := (build_inv docs).2.2 q.1 q.2 hqm r hrlt
    have hgplt : q.2.getD r 0 < matrix.length := by
      rw [hlen]
      exact hinv.1
    have hsc : (docScores (matrix.map fun row => dotList qvec row) q.2).getD r 0 =
        dotList qvec (matrix.getD (q.2.getD r 0) []) := by
      rw [docScores_getD _ _ r hrlt]
      exact getD_map_lt (fun row => dotList qvec row) matrix [] 0 _ hgplt
    have hrow := hrows (matrix.getD (q.2.getD r 0) [])
      (getD_mem_lt _ _ _ hgplt)
    have h0 : 0 ≤ dotList qvec (matrix.getD (q.2.getD r 0) []) :=
      dotList_nonneg _ _ hqv hrow.1
    have h1 : dotList qvec (matrix.getD (q.2.getD r 0) []) ≤ 1 :=
      dotList_le_one _ _ hqn hrow.2
    refine ⟨q.2.getD r 0, hgplt, rfl, ?_, ?_, ?_⟩
    · show pyround4 _ = _
      rw [hsc]
    · show 0 ≤ pyround4 _
      rw [hsc]
      exact pyround4_nonneg h0
    · show pyround4 _ ≤ 1
      rw [hsc]
      exact pyround4_le_one h1

/-- Witness for claim C2 on a one-page corpus with a unit query vector. -/
theorem claim_C2_witness :
    (¬ pystrip "alpha" = "") ∧
    ((build_index [("A", some ["alpha"])]).all_texts ≠ []) ∧
    (∀ x ∈ ([1] : List ℚ), 0 ≤ x) ∧
    dotList [1] [1] ≤ 1 ∧
    (∀ row ∈ ([[1]] : List (List ℚ)),
      (∀ x ∈ row, 0 ≤ x) ∧ dotList row row ≤ 1) ∧
    ([[1]] : List (List ℚ)).length =
      (build_index [("A", some ["alpha"])]).pages_data.length ∧
    ∀ p ∈ resultsOf (api_search (fun _ => "A.pdf")
        (build_index [("A", some ["alpha"])]) "alpha" 3 [1] [[1]]),
      ∀ it ∈ p.2, ∃ gp, gp < ([[1]] : List (List ℚ)).length ∧
        it.page_no =
          ((build_index [("A", some ["alpha"])]).pages_data.getD gp
            default).page_no ∧
        it.score = pyround4 (dotList [1] (([[1]] : List (List ℚ)).getD gp [])) ∧
        0 ≤ it.score ∧ it.score ≤ 1 :=
  ⟨by decide, by decide,
    of_decide_eq_true (by with_unfolding_all rfl),
    of_decide_eq_true (by with_unfolding_all rfl),
    of_decide_eq_true (by with_unfolding_all rfl),
    by decide,
    claim_C2_score_rounded_cosine_in_unit_interval _ _ _ _ _ _ (by decide)
      (by decide) (of_decide_eq_true (by with_unfolding_all rfl))
      (of_decide_eq_true (by with_unfolding_all rfl))
      (of_decide_eq_true (by with_unfolding_all rfl)) (by decide)⟩

/-- Counterexample to claim C3: a document whose two pages score identically
(here both pages have the same text and both rows equal the query vector) is
returned with page 2 BEFORE page 1 — `scores.argsort()[::-1]` reverses the
ascending order, so tied pages come out in reverse corpus order, not
original corpus order. -/
theorem claim_C3_counterexample :
    ((resultsOf (api_search (fun _ => "A.pdf")
        (build_index [("A", some ["same text", "same text"])])
        "same" 3 [1] [[1], [1]])).getD 0 ("", [])).2.map RankedItem.score =
      [1, 1] ∧
    ((resultsOf (api_search (fun _ => "A.pdf")
        (build_index [("A", some ["same text", "same text"])])
        "same" 3 [1] [[1], [1]])).getD 0 ("", [])).2.map RankedItem.page_no =
      [2, 1] :=
  ⟨of_decide_eq_true (by with_unfolding_all rfl),
    of_decide_eq_true (by with_unfolding_all rfl)⟩

/-- Claim C3 (amended): within each document the returned ranking is in
strictly decreasing score order except at ties, and tied pages appear in
REVERSE corpus order — the later list position (hence, by the second
conjunct, the higher page number) comes first. -/
theorem claim_C3_amended_ties_reverse_corpus_order
    (docs : List (String × Option (List String))) (dk : String)
    (idxs : List ℕ) (sims : List ℚ) (top_k : ℤ)
    (hmem : (dk, idxs) ∈ (build_index docs).doc_page_index) :
    List.Pairwise (fun a b =>
      (docScores sims idxs).getD b 0 < (docScores sims idxs).getD a 0 ∨
      ((docScores sims idxs).getD b 0 = (docScores sims idxs).getD a 0 ∧
        b < a)) (docOrder sims top_k idxs) ∧
    ∀ a, a < idxs.length →
      ((build_index docs).pages_data.getD (idxs.getD a 0) default).page_no =
        a + 1 := by
  constructor
  · have h1 := docOrder_pairwise sims top_k idxs
    have h2 : (docOrder sims top_k idxs).Nodup := docOrder_nodup sims top_k idxs
    refine (List.Pairwise.and h1 h2).imp ?_
    intro a b hab
    obtain ⟨hrel, hne⟩ := hab
    rcases hrel with h | ⟨heq, hle⟩
    · exact Or.inl h
    · exact Or.inr ⟨heq, lt_of_le_of_ne hle (Ne.symm hne)⟩
  · intro a ha
    exact ((build_inv docs).2.2 dk idxs hmem a ha).2.2

/-- Witness for the amended claim C3 on a two-page document with tied
scores. -/
theorem claim_C3_witness :
    ((("A", [0, 1]) : String × List ℕ) ∈
      (build_index [("A", some ["same text", "same text"])]).doc_page_index) ∧
    (List.Pairwise (fun a b =>
        (docScores [1, 1] [0, 1]).getD b 0 < (docScores [1, 1] [0, 1]).getD a 0 ∨
        ((docScores [1, 1] [0, 1]).getD b 0 =
            (docScores [1, 1] [0, 1]).getD a 0 ∧ b < a))
        (docOrder [1, 1] 3 [0, 1]) ∧
      ∀ a, a < ([0, 1] : List ℕ).length →
        ((build_index [("A", some ["same text", "same text"])]).pages_data.getD
          (([0, 1] : List ℕ).getD a 0) default).page_no = a + 1) :=
  ⟨by decide, claim_C3_amended_ties_reverse_corpus_order
    [("A", some ["same text", "same text"])] "A" [0, 1] [1, 1] 3 (by decide)⟩

/-- Counterexample to claim C6: with overlap scores A = 1 and B = 0 the top
score is positive, yet the first content line reads
`"Documents with strongest relevance: A, B."` — it names every document
(including B, whose overlap is 0), not the strongest document(s) only. -/
theorem claim_C6_counterexample :
    overlapScore "project" "project alpha" = 1 ∧
    overlapScore "project" "zzz" = 0 ∧
    (synthLines "project" [("A", "project alpha"), ("B", "zzz")]).getD 1 "" =
      "Documents with strongest relevance: A, B." ∧
    ¬ (synthLines "project" [("A", "project alpha"), ("B", "zzz")]).getD 1 "" =
        "Documents with strongest relevance: A." := by
  refine ⟨by decide, by decide, by decide, by decide⟩

/-- Claim C6 (amended): when the top overlap score is positive, the first
content line of the summary is the "strongest relevance" line listing ALL
documents in non-increasing overlap order (so the list begins with a
document of maximal score); when the top score is `0` — or there are no
documents — it is the no-dominance line.  The second conjunct states the
non-increasing order of the ranked list. -/
theorem claim_C6_amended_strong_line_lists_all_docs (query : String)
    (snips : List (String × String)) :
    (synthLines query snips).getD 1 "" =
      (if 0 < ((rankedDocs query snips).headD ("", 0)).2 then
        "Documents with strongest relevance: " ++
          pyjoin ", " ((rankedDocs query snips).map Prod.fst) ++ "."
      else
        "No clear dominant document found; all provide contextual relevance.") ∧
    List.Pairwise (fun a b => b.2 ≤ a.2) (rankedDocs query snips) := by
  refine ⟨?_, rankedDocs_pairwise query snips⟩
  unfold synthLines
  cases hr : rankedDocs query snips with
  | nil => simp [hr]
  | cons r0 rest => simp [hr]
